import Mathlib

/-!
# Verification of the module-resolution / session-host core of
# eslint-plugin-mossop-typescript

This file shallowly embeds the resolution, caching, session and diagnostic
translation logic of `src/check-types.ts` and `src/utils.ts` into Lean.

Modelling conventions:
* POSIX path strings are modelled directly; `path.join`, `path.resolve`,
  `path.dirname` and `path.basename` are reimplemented on components for the
  absolute, already-normalized paths the plugin passes them (the plugin always
  derives directories from absolute file names).
* The filesystem is a record of the three effectful primitives the source
  uses (`fs.statSync`, `fs.readFileSync`, and the JSON-parse-plus-decode of a
  package manifest); each returns `Except Unit _` so the source's
  `try { .. } catch` structure is carried over explicitly.
* JavaScript truthiness checks on strings and numbers (`if (name)`,
  `if (pkg.typings)`-style guards, `diagnostic.start &&`) are embedded as
  the corresponding emptiness / zero tests.
* Mutable `Map`s (module cache, snapshot table, project registry) become
  association lists threaded through the functions that mutate them;
  `Map.set` / `Map.get` / `Map.has` / `Map.delete` become `insertAssoc` /
  `lookupAssoc` / `eraseAssoc`.
-/

namespace CheckTypes

/-! ## Path model (`path` module, POSIX flavour) -/

/-- Split a character list at `/`, accumulating the current component. -/
def splitOnSlash : List Char → List Char → List String
  | [], acc => [String.mk acc.reverse]
  | c :: cs, acc =>
    if c = '/' then String.mk acc.reverse :: splitOnSlash cs []
    else splitOnSlash cs (c :: acc)

/-- The non-empty components of a path string. -/
def splitPath (p : String) : List String :=
  (splitOnSlash p.data []).filter (fun s => s != "")

/-- Join components with `/` separators. -/
def joinComponents : List String → String
  | [] => ""
  | [c] => c
  | c :: cs => c ++ "/" ++ joinComponents cs

/-- One step of path normalization: `.` is dropped, `..` pops the last
component (at the root it pops nothing, as for absolute POSIX paths). -/
def normAcc (acc : List String) (c : String) : List String :=
  if c = "." then acc
  else if c = ".." then acc.dropLast
  else acc ++ [c]

/-- Normalize a component list, resolving `.` and `..`. -/
def normalizeParts (cs : List String) : List String :=
  cs.foldl normAcc []

/-- `s.startsWith pre` on the underlying character lists. -/
def strStartsWith (s pre : String) : Bool :=
  pre.data.isPrefixOf s.data

/-- `s.endsWith suf` on the underlying character lists. -/
def strEndsWith (s suf : String) : Bool :=
  suf.data.isSuffixOf s.data

/-- `path.join(a, b)` for the paths the plugin uses (absolute `a`, or two
relative segments without leading `..`). -/
def pathJoin (a b : String) : String :=
  let parts := normalizeParts (splitPath a ++ splitPath b)
  if strStartsWith a "/" then "/" ++ joinComponents parts
  else joinComponents parts

/-- `path.resolve(directory, name)` where `directory` is absolute (the host
always passes the dirname of an absolute file path). -/
def pathResolve (directory name : String) : String :=
  if strStartsWith name "/" then "/" ++ joinComponents (normalizeParts (splitPath name))
  else "/" ++ joinComponents (normalizeParts (splitPath directory ++ splitPath name))

/-- `path.dirname` on a normalized path. -/
def pathDirname (p : String) : String :=
  let cs := splitPath p
  if strStartsWith p "/" then
    match cs.dropLast with
    | [] => "/"
    | ds => "/" ++ joinComponents ds
  else
    match cs.dropLast with
    | [] => "."
    | ds => joinComponents ds

/-- `path.basename` on a normalized path. -/
def pathBasename (p : String) : String :=
  match (splitPath p).getLast? with
  | some c => c
  | none => ""

/-- The loop body of the `parents` generator: repeatedly take `path.dirname`
until it no longer changes.  The fuel is the component count, which bounds the
number of strict `dirname` steps. -/
def parentsAux : Nat → String → List String
  | 0, directory => [directory]
  | n + 1, directory =>
    let parent := pathDirname directory
    if parent = directory then [directory]
    else directory :: parentsAux n parent

/-- `parents(directory)` from check-types.ts: the directory and all its
ancestors up to the filesystem root, nearest first. -/
def parents (directory : String) : List String :=
  parentsAux (splitPath directory).length directory

/-! ## Filesystem model -/

/-- The part of `fs.Stats` the source consults. -/
structure FileStat where
  isFile : Bool
deriving DecidableEq

/-- Decoded `package.json` (`PackageInfo` in utils.ts); both entries are
already resolved against the manifest directory by `PathDecoder`. -/
structure PackageInfo where
  index : Option String := none
  typings : Option String := none
deriving DecidableEq

/-- The effectful primitives of the source, as explicit partial operations:
`stat` is `fs.statSync`, `read` is `fs.readFileSync`, and `decodePackage`
is `JSON.parse` composed with `decode(PackageInfoDecoder(directory), ·)`
(both of which throw on malformed input, hence `Except`). -/
structure FileSystem where
  stat : String → Except Unit FileStat
  read : String → Except Unit String
  decodePackage : String → String → Except Unit PackageInfo

/-- `isFile(name?)` from check-types.ts: `undefined` and the empty string are
falsy and give `false`; a `statSync` exception gives `false`. -/
def isFile (fs : FileSystem) (name : Option String) : Bool :=
  match name with
  | none => false
  | some n =>
    if n = "" then false
    else
      match fs.stat n with
      | Except.ok st => st.isFile
      | Except.error _ => false

/-- `loadPackage(directory)` from utils.ts: read and decode
`directory/package.json`, with every read or parse failure caught and turned
into `null`. -/
def loadPackage (fs : FileSystem) (directory : String) : Option PackageInfo :=
  match fs.read (pathJoin directory "package.json") with
  | Except.error _ => none
  | Except.ok content =>
    match fs.decodePackage directory content with
    | Except.error _ => none
    | Except.ok pkg => some pkg

/-- A concrete filesystem from a list of regular files and a list of
directories carrying a decodable `package.json`. -/
def mkFS (files : List String) (pkgs : List (String × PackageInfo)) : FileSystem where
  stat n := if files.contains n then Except.ok { isFile := true } else Except.error ()
  read n :=
    if (pkgs.map (fun p => pathJoin p.1 "package.json")).contains n then Except.ok n
    else Except.error ()
  decodePackage dir _content :=
    match pkgs.find? (fun p => p.1 = dir) with
    | some p => Except.ok p.2
    | none => Except.error ()

/-! ## Extensions and resolved modules -/

/-- The `typescript` `Extension` string enum (its values are the literal
extension strings). -/
inductive Extension where
  | Ts
  | Tsx
  | Dts
  | Js
  | Jsx
  | Json
deriving DecidableEq

/-- The string value of each `Extension` enum member. -/
def Extension.str : Extension → String
  | .Ts => ".ts"
  | .Tsx => ".tsx"
  | .Dts => ".d.ts"
  | .Js => ".js"
  | .Jsx => ".jsx"
  | .Json => ".json"

/-- `TS_EXTENSIONS` from check-types.ts. -/
def TS_EXTENSIONS : List Extension := [Extension.Ts, Extension.Tsx, Extension.Dts]

/-- `JS_EXTENSIONS` from check-types.ts. -/
def JS_EXTENSIONS : List Extension := [Extension.Js, Extension.Jsx, Extension.Json]

/-- `Object.keys(Extension)` for the string enum: the member names, in
declaration order. -/
def extensionKeys : List String := ["Ts", "Tsx", "Dts", "Js", "Jsx", "Json"]

/-- `Extension[key]` for a member name: the enum value (a string). -/
def extensionValueOfKey (key : String) : Option String :=
  match key with
  | "Ts" => some ".ts"
  | "Tsx" => some ".tsx"
  | "Dts" => some ".d.ts"
  | "Js" => some ".js"
  | "Jsx" => some ".jsx"
  | "Json" => some ".json"
  | _ => none

/-- `Extension[value]` for a string-enum *value*: TypeScript string enums have
no reverse mapping, so this is `undefined` for every argument. -/
def extensionOfValue (_value : String) : Option Extension := none

/-- `getExtensionFromFileName(name)` from check-types.ts.  The loop skips
every key unless `name` starts with `.`, and on an `endsWith(key)` match
returns `Extension[Extension[key]]`, which is the (always-`undefined`)
reverse lookup `extensionOfValue`. -/
def getExtensionFromFileName (name : String) : Option Extension :=
  match extensionKeys.find? (fun key => strStartsWith name "." && strEndsWith name key) with
  | some key => (extensionValueOfKey key).bind extensionOfValue
  | none => none

/-- `ResolvedModuleFull` — the fields the source constructs. -/
structure ResolvedModuleFull where
  resolvedFileName : String
  isExternalLibraryImport : Bool
  extension : Extension
deriving DecidableEq

/-- `findAny(target, extensions, isGlobal)` from check-types.ts: probe
`target + extension` for each extension in order, returning the first hit. -/
def findAny (fs : FileSystem) (target : String) : List Extension → Bool → Option ResolvedModuleFull
  | [], _ => none
  | ext :: rest, isGlobal =>
    if isFile fs (some (target ++ ext.str)) then
      some { resolvedFileName := target ++ ext.str
             isExternalLibraryImport := isGlobal
             extension := ext }
    else findAny fs target rest isGlobal

/-- The `pkg && pkg.typings && isFile(pkg.typings)` guard and the record it
produces (shared by `findTypes` and `findModule`); an empty `typings` string
is falsy in JavaScript. -/
def pkgTypingsResult (fs : FileSystem) (pkg? : Option PackageInfo) (isGlobal : Bool) :
    Option ResolvedModuleFull :=
  match pkg? with
  | none => none
  | some pkg =>
    match pkg.typings with
    | none => none
    | some t =>
      if t ≠ "" && isFile fs (some t) then
        some { resolvedFileName := t
               isExternalLibraryImport := isGlobal
               extension := (getExtensionFromFileName t).getD Extension.Dts }
      else none

/-- The `pkg && pkg.index && isFile(pkg.index)` guard of `findModule`. -/
def pkgIndexResult (fs : FileSystem) (pkg? : Option PackageInfo) (isGlobal : Bool) :
    Option ResolvedModuleFull :=
  match pkg? with
  | none => none
  | some pkg =>
    match pkg.index with
    | none => none
    | some i =>
      if i ≠ "" && isFile fs (some i) then
        some { resolvedFileName := i
               isExternalLibraryImport := isGlobal
               extension := (getExtensionFromFileName i).getD Extension.Js }
      else none

/-- `findTypes(target)` from check-types.ts: a declaration file next to the
target, a manifest `typings` entry, or `target/index.d.ts`, in that order. -/
def findTypes (fs : FileSystem) (target : String) : Option ResolvedModuleFull :=
  if isFile fs (some (target ++ ".d.ts")) then
    some { resolvedFileName := target ++ ".d.ts"
           isExternalLibraryImport := true
           extension := Extension.Dts }
  else
    match pkgTypingsResult fs (loadPackage fs target) true with
    | some r => some r
    | none =>
      if isFile fs (some (pathJoin target "index.d.ts")) then
        some { resolvedFileName := pathJoin target "index.d.ts"
               isExternalLibraryImport := true
               extension := Extension.Dts }
      else none

/-- The `for (let dir of typeRoots)` loop of `findModule`. -/
def findInTypeRoots (fs : FileSystem) (name : String) : List String → Option ResolvedModuleFull
  | [] => none
  | dir :: rest =>
    match findTypes fs (pathJoin dir name) with
    | some found => some found
    | none => findInTypeRoots fs name rest

/-- `findModule(directory, name, typeRoots?)` from check-types.ts.
`isGlobal = !!typeRoots` is true for any supplied array, even an empty one.
The probe order is: target + TS extensions; manifest `typings`; the
type-roots loop; `target/index` + TS extensions; target + JS extensions;
manifest `index`; `target/index` + JS extensions. -/
def findModule (fs : FileSystem) (directory name : String) (typeRoots : Option (List String)) :
    Option ResolvedModuleFull :=
  let target := pathJoin directory name
  let isGlobal := typeRoots.isSome
  match findAny fs target TS_EXTENSIONS isGlobal with
  | some found => some found
  | none =>
    let pkg := loadPackage fs target
    match pkgTypingsResult fs pkg isGlobal with
    | some r => some r
    | none =>
      match (match typeRoots with
             | some roots => findInTypeRoots fs name roots
             | none => none) with
      | some found => some found
      | none =>
        match findAny fs (pathJoin target "index") TS_EXTENSIONS isGlobal with
        | some found => some found
        | none =>
          match findAny fs target JS_EXTENSIONS isGlobal with
          | some found => some found
          | none =>
            match pkgIndexResult fs pkg isGlobal with
            | some r => some r
            | none => findAny fs (pathJoin target "index") JS_EXTENSIONS isGlobal

/-! ## Association lists (the `Map`s of the source) -/

/-- `Map.get` combined with `Map.has`: `some v` exactly when the key is
present. -/
def lookupAssoc {β : Type} (l : List (String × β)) (k : String) : Option β :=
  match l with
  | [] => none
  | (k1, v) :: rest => if k1 = k then some v else lookupAssoc rest k

/-- `Map.set`: replace the entry for `k` or append a new one. -/
def insertAssoc {β : Type} (l : List (String × β)) (k : String) (v : β) :
    List (String × β) :=
  match l with
  | [] => [(k, v)]
  | (k1, v1) :: rest => if k1 = k then (k, v) :: rest else (k1, v1) :: insertAssoc rest k v

/-- `Map.delete`: drop the entry for `k` (keys are unique by construction). -/
def eraseAssoc {β : Type} (l : List (String × β)) (k : String) : List (String × β) :=
  match l with
  | [] => []
  | (k1, v1) :: rest => if k1 = k then rest else (k1, v1) :: eraseAssoc rest k

/-! ## Compiler options and search paths -/

/-- The compiler options consulted by module resolution (`options.types` and
`options.typeRoots`); the remaining options of the config schema never reach
the resolver. -/
structure CompilerOptions where
  types : Option (List String) := none
  typeRoots : Option (List String) := none
deriving DecidableEq

/-- The ambient data of the plugin module itself: `__filename` and
`require.resolve.paths(__filename)` (which may be `null`). -/
structure PluginEnv where
  filename : String
  resolvePaths : Option (List String)

/-- The `globalPaths` computation of the `ESLintServiceHost` constructor:
`require.resolve.paths(__filename) || []` with the plugin file's own ancestor
`node_modules` chain sliced off the front. -/
def globalPaths (env : PluginEnv) : List String :=
  let paths := env.resolvePaths.getD []
  paths.drop (parents (pathDirname env.filename)).length

/-- The `modulePaths` computation of the `ESLintServiceHost` constructor:
a `node_modules` directory for the project root and each of its ancestors,
nearest first, followed by the global paths. -/
def buildModulePaths (env : PluginEnv) (projectRoot : String) : List String :=
  let projectPaths := (parents projectRoot).map (fun directory => pathJoin directory "node_modules")
  projectPaths ++ globalPaths env

/-! ## Module lookup (`ESLintServiceHost.moduleLookup` / `resolveModuleNames`) -/

/-- The module cache of the host: `Map<string, ResolvedModuleFull | undefined>`
(a cached `undefined` records a failed lookup). -/
def ModuleCache : Type := List (String × Option ResolvedModuleFull)

/-- The `for (let global of globals)` loop of `moduleLookup`:
`typePackages` is `options.typeRoots || [path.join(global, "@types")]` when
type packages are to be checked (an empty `typeRoots` array is truthy and is
used as given) and `[]` otherwise. -/
def bareLookupLoop (fs : FileSystem) (name : String) (options : CompilerOptions)
    (checkTypesPackages : Bool) : List String → Option ResolvedModuleFull
  | [] => none
  | global :: rest =>
    let typePackages : List String :=
      if checkTypesPackages then
        match options.typeRoots with
        | some roots => roots
        | none => [pathJoin global "@types"]
      else []
    match findModule fs global name (some typePackages) with
    | some found => some found
    | none => bareLookupLoop fs name options checkTypesPackages rest

/-- `ESLintServiceHost.moduleLookup(directory, name, options, globals)`:
relative names are resolved against the directory and cached under the
normalized absolute target; other names are searched through the global
directories and cached under the specifier itself (successful or not). -/
def moduleLookup (fs : FileSystem) (cache : ModuleCache) (directory name : String)
    (options : CompilerOptions) (globals : List String) :
    Option ResolvedModuleFull × ModuleCache :=
  if strStartsWith name "." then
    let target := pathResolve directory name
    match lookupAssoc cache target with
    | some cached => (cached, cache)
    | none =>
      let result := findModule fs (pathDirname target) (pathBasename target) none
      (result, insertAssoc cache target result)
  else
    match lookupAssoc cache name with
    | some cached => (cached, cache)
    | none =>
      let checkTypesPackages : Bool :=
        match options.types with
        | none => true
        | some ts => ts.contains name
      let result := bareLookupLoop fs name options checkTypesPackages globals
      (result, insertAssoc cache name result)

/-- The `moduleNames.map(...)` of `resolveModuleNames`, threading the shared
module cache left to right. -/
def resolveLoop (fs : FileSystem) (directory : String) (options : CompilerOptions)
    (modulePaths : List String) :
    ModuleCache → List String → List (Option ResolvedModuleFull) × ModuleCache
  | cache, [] => ([], cache)
  | cache, name :: rest =>
    let step := moduleLookup fs cache directory name options modulePaths
    let restResult := resolveLoop fs directory options modulePaths step.2 rest
    (step.1 :: restResult.1, restResult.2)

/-- `ESLintServiceHost.resolveModuleNames`: resolve each specifier from the
directory of the containing file, against the host's module paths. -/
def resolveModuleNames (fs : FileSystem) (cache : ModuleCache) (moduleNames : List String)
    (containingFile : String) (options : CompilerOptions) (modulePaths : List String) :
    List (Option ResolvedModuleFull) × ModuleCache :=
  let directory := pathDirname containingFile
  resolveLoop fs directory options modulePaths cache moduleNames

/-! ## Script snapshots -/

/-- `ScriptSnapshot`: the lazily loaded content (`script`, `null` until first
access) and the file name.  The host back-reference becomes the explicitly
threaded snapshot table. -/
structure ScriptSnapshot where
  script : Option String
  filename : String
deriving DecidableEq

/-- The snapshot table of the host: `Map<string, ScriptSnapshot>`. -/
def SnapshotTable : Type := List (String × ScriptSnapshot)

/-- `ScriptSnapshot.getContent`: `if (this.script) return this.script` (an
empty cached string is falsy and falls through to a re-read), otherwise
`fs.readFileSync` — whose exception propagates — and memoize. -/
def ScriptSnapshot.getContent (fs : FileSystem) (snap : ScriptSnapshot) :
    Except Unit (String × ScriptSnapshot) :=
  match snap.script with
  | some s =>
    if s ≠ "" then Except.ok (s, snap)
    else (fs.read snap.filename).map (fun content => (content, { snap with script := some content }))
  | none =>
    (fs.read snap.filename).map (fun content => (content, { snap with script := some content }))

/-- `content.substr(start, length)`. -/
def strSubstr (s : String) (start length : Nat) : String :=
  String.mk ((s.data.drop start).take length)

/-- `ScriptSnapshot.getText(start, end)`. -/
def ScriptSnapshot.getText (fs : FileSystem) (snap : ScriptSnapshot) (start endPos : Nat) :
    Except Unit (String × ScriptSnapshot) :=
  (snap.getContent fs).map (fun r => (strSubstr r.1 start (endPos - start), r.2))

/-- `ScriptSnapshot.getLength()`. -/
def ScriptSnapshot.getLength (fs : FileSystem) (snap : ScriptSnapshot) :
    Except Unit (Nat × ScriptSnapshot) :=
  (snap.getContent fs).map (fun r => (r.1.length, r.2))

/-- `ScriptSnapshot.dispose()`: clear the cached content and remove the
snapshot from the owning host's table. -/
def disposeSnapshot (snapshots : SnapshotTable) (snap : ScriptSnapshot) :
    ScriptSnapshot × SnapshotTable :=
  ({ snap with script := none }, eraseAssoc snapshots snap.filename)

/-- `ESLintServiceHost.getScriptSnapshot`: create and register a snapshot on
first request, then return the registered one. -/
def getScriptSnapshot (snapshots : SnapshotTable) (fileName : String) :
    ScriptSnapshot × SnapshotTable :=
  match lookupAssoc snapshots fileName with
  | some snap => (snap, snapshots)
  | none =>
    let snap : ScriptSnapshot := { script := none, filename := fileName }
    (snap, insertAssoc snapshots fileName snap)

/-! ## Project configuration, session host and session registry -/

/-- `Config` from utils.ts (`include` is spelled `includeGlobs` because
`include` is a Lean keyword). -/
structure Config where
  compilerOptions : CompilerOptions
  files : Option (List String) := none
  includeGlobs : Option (List String) := none
  exclude : Option (List String) := none
deriving DecidableEq

/-- The `ESLintServiceHost` fields.  The external engine only ever sees these
through the callback methods; the snapshot table and module cache are the
states threaded by `getScriptSnapshot` and `moduleLookup` above. -/
structure ESLintServiceHost where
  config : Config
  snapshots : SnapshotTable
  moduleCache : ModuleCache
  files : List String
  modulePaths : List String

/-- The `ESLintServiceHost` constructor.  `findIncludedFiles` (a globby-backed
file-set enumeration, an external collaborator of this core) is passed in as
a function. -/
def mkESLintServiceHost (env : PluginEnv) (findIncludedFiles : Config → String → List String)
    (projectRoot : String) (config : Config) : ESLintServiceHost :=
  { config := config
    snapshots := []
    moduleCache := []
    files := findIncludedFiles config projectRoot
    modulePaths := buildModulePaths env projectRoot }

/-- `ESLintProject`: the session host paired with the engine handle; the
`LanguageService` created by `createLanguageService(host)` is an opaque
external object and is not modelled. -/
structure ESLintProject where
  host : ESLintServiceHost

/-- The ambient collaborators of `getProject`: the plugin environment, the
config decoder `decodeConfig` of utils.ts (which throws on a read, parse or
validation failure — hence `Except`), and the globby-backed
`findIncludedFiles`. -/
structure RuleEnv where
  pluginEnv : PluginEnv
  decodeConfig : String → Except String Config
  findIncludedFiles : Config → String → List String

/-- The `for (let current of parents(directory))` loop of `findAbove`. -/
def findAboveLoop (fs : FileSystem) (filename : String) : List String → Option String
  | [] => none
  | current :: rest =>
    if isFile fs (some (pathJoin current filename)) then some (pathJoin current filename)
    else findAboveLoop fs filename rest

/-- `findAbove(directory, filename)` from check-types.ts: the nearest ancestor
directory containing `filename`, as a full path. -/
def findAbove (fs : FileSystem) (directory filename : String) : Option String :=
  findAboveLoop fs filename (parents directory)

/-- The report emitted when the config cannot be decoded: the fixed message
template plus the `data.error` payload the lint runtime interpolates into
it. -/
structure ConfigReport where
  message : String
  error : String
deriving DecidableEq

/-- The process-wide `projectMap` registry:
`Map<string, ESLintProject | undefined>`. -/
def ProjectMap : Type := List (String × Option ESLintProject)

/-- `getProject(context, node)` from check-types.ts, with
`context.getFilename()` passed as `filename` and the emitted `context.report`
calls collected in the second component.  Returns the project (if any), the
reports, and the updated registry. -/
def getProject (env : RuleEnv) (fs : FileSystem) (projectMap : ProjectMap) (filename : String) :
    Option ESLintProject × List ConfigReport × ProjectMap :=
  match findAbove fs (pathDirname filename) "tsconfig.json" with
  | none => (none, [], projectMap)
  | some configFile =>
    match lookupAssoc projectMap configFile with
    | some cached => (cached, [], projectMap)
    | none =>
      match env.decodeConfig configFile with
      | Except.error e =>
        (none, [{ message := "Could not parse tsconfig.json: {{ error }}", error := e }], projectMap)
      | Except.ok config =>
        let host := mkESLintServiceHost env.pluginEnv env.findIncludedFiles
          (pathDirname configFile) config
        let project : ESLintProject := { host := host }
        (some project, [], insertAssoc projectMap configFile (some project))

/-- `sub` occurs as a prefix of some suffix of the character list. -/
def listInfixOf (sub : List Char) : List Char → Bool
  | [] => sub.isPrefixOf []
  | c :: cs => sub.isPrefixOf (c :: cs) || listInfixOf sub cs

/-- `sub` occurs somewhere inside `s`. -/
def strContains (s sub : String) : Bool :=
  listInfixOf sub.data s.data

/-! ## Diagnostic translation -/

/-- `DiagnosticCategory` from the `typescript` package. -/
inductive DiagnosticCategory where
  | Warning
  | Error
  | Suggestion
  | Message
deriving DecidableEq

/-- `LineAndCharacter`: 0-based line and character as the engine reports
them. -/
structure LineAndCharacter where
  line : Nat
  character : Nat
deriving DecidableEq

/-- The one method of the engine's `SourceFile` object the translator calls:
its position table, `getLineAndCharacterOfPosition`. -/
structure SourceFileModel where
  getLineAndCharacterOfPosition : Nat → LineAndCharacter

/-- The fields of an engine `Diagnostic` the translator consults.
`messageText` is kept in its flattened form (the source flattens it through
the external `flattenDiagnosticMessageText` before reporting). -/
structure Diagnostic where
  file : Option SourceFileModel
  start : Option Nat
  length : Option Nat
  category : DiagnosticCategory
  code : Nat
  messageText : String

/-- JavaScript truthiness of an optional number: `undefined` and `0` are
falsy. -/
def numTruthy : Option Nat → Bool
  | none => false
  | some n => n != 0

/-- `isDiagnosticWithLocation(diagnostic)` from check-types.ts:
`diagnostic.file && diagnostic.start && diagnostic.length` — so a start
offset of `0` or a length of `0` fails the test. -/
def isDiagnosticWithLocation (d : Diagnostic) : Bool :=
  d.file.isSome && numTruthy d.start && numTruthy d.length

/-- The `data` payload of the emitted report. -/
structure ReportData where
  category : String
  code : String
  text : String
deriving DecidableEq

/-- The `loc` range of a location-based report: 1-based lines, 0-based
columns. -/
structure Loc where
  startLine : Nat
  startColumn : Nat
  endLine : Nat
  endColumn : Nat
deriving DecidableEq

/-- The caller-supplied syntax node, identified abstractly. -/
structure ESNode where
  id : Nat
deriving DecidableEq

/-- A lint report: either location-based or anchored to a node. -/
inductive Report where
  | located (data : ReportData) (loc : Loc)
  | onNode (node : ESNode) (data : ReportData)
deriving DecidableEq

/-- The `data` computed at the top of `reportDiagnostic`: the category name
from the `switch`, `String(diagnostic.code)`, and the flattened message
text. -/
def mkReportData (d : Diagnostic) : ReportData :=
  { category :=
      match d.category with
      | DiagnosticCategory.Warning => "warning"
      | DiagnosticCategory.Error => "error"
      | DiagnosticCategory.Suggestion => "suggestion"
      | DiagnosticCategory.Message => "message"
    code := toString d.code
    text := d.messageText }

/-- `reportDiagnostic(context, node, diagnostic)` from check-types.ts: when
`isDiagnosticWithLocation` holds (file present, start and length present and
nonzero), convert `start` and `start + length` through the file's position
table and report a 1-based-line / 0-based-column range; otherwise report on
the caller's node. -/
def reportDiagnostic (node : ESNode) (d : Diagnostic) : Report :=
  let data := mkReportData d
  match d.file, d.start, d.length with
  | some file, some start, some len =>
    if start != 0 && len != 0 then
      let s := file.getLineAndCharacterOfPosition start
      let e := file.getLineAndCharacterOfPosition (start + len)
      Report.located data
        { startLine := s.line + 1
          startColumn := s.character
          endLine := e.line + 1
          endColumn := e.character }
    else Report.onNode node data
  | _, _, _ => Report.onNode node data

/-! ## Helper lemmas -/

theorem lookupAssoc_insert {β : Type} (l : List (String × β)) (k : String) (v : β) :
    lookupAssoc (insertAssoc l k v) k = some v := by
  induction l with
  | nil => simp [insertAssoc, lookupAssoc]
  | cons hd t ih =>
    obtain ⟨k1, v1⟩ := hd
    by_cases hk : k1 = k
    · simp [insertAssoc, hk, lookupAssoc]
    · simp [insertAssoc, hk, lookupAssoc, ih]

theorem lookupAssoc_eq_none_of_not_mem {β : Type} (l : List (String × β)) (k : String)
    (h : k ∉ l.map Prod.fst) : lookupAssoc l k = none := by
  induction l with
  | nil => simp [lookupAssoc]
  | cons hd t ih =>
    obtain ⟨k1, v1⟩ := hd
    simp only [List.map_cons, List.mem_cons] at h
    push_neg at h
    have hne : ¬k1 = k := fun hh => h.1 hh.symm
    simp [lookupAssoc, hne, ih h.2]

theorem lookupAssoc_erase_self {β : Type} (l : List (String × β)) (k : String)
    (h : (l.map Prod.fst).Nodup) : lookupAssoc (eraseAssoc l k) k = none := by
  induction l with
  | nil => simp [eraseAssoc, lookupAssoc]
  | cons hd t ih =>
    obtain ⟨k1, v1⟩ := hd
    simp only [List.map_cons, List.nodup_cons] at h
    by_cases hk : k1 = k
    · subst hk
      simpa [eraseAssoc] using lookupAssoc_eq_none_of_not_mem t k1 h.1
    · simp [eraseAssoc, hk, lookupAssoc, ih h.2]

theorem parents_cons (d : String) : ∃ t, parents d = d :: t := by
  unfold parents
  cases (splitPath d).length with
  | zero => exact ⟨[], rfl⟩
  | succ n =>
    simp only [parentsAux]
    split
    · exact ⟨[], rfl⟩
    · exact ⟨_, rfl⟩

theorem findAny_external (fs : FileSystem) (target : String) :
    ∀ (exts : List Extension) (g : Bool) (r : ResolvedModuleFull),
      findAny fs target exts g = some r → r.isExternalLibraryImport = g := by
  intro exts
  induction exts with
  | nil => intro g r h; simp [findAny] at h
  | cons e rest ih =>
    intro g r h
    simp only [findAny] at h
    split at h
    · cases h; rfl
    · exact ih g r h

theorem pkgTypingsResult_external (fs : FileSystem) (pkg? : Option PackageInfo) (g : Bool)
    (r : ResolvedModuleFull) (h : pkgTypingsResult fs pkg? g = some r) :
    r.isExternalLibraryImport = g := by
  unfold pkgTypingsResult at h
  split at h
  · exact absurd h (by simp)
  · split at h
    · exact absurd h (by simp)
    · split at h
      · cases h; rfl
      · exact absurd h (by simp)

theorem pkgIndexResult_external (fs : FileSystem) (pkg? : Option PackageInfo) (g : Bool)
    (r : ResolvedModuleFull) (h : pkgIndexResult fs pkg? g = some r) :
    r.isExternalLibraryImport = g := by
  unfold pkgIndexResult at h
  split at h
  · exact absurd h (by simp)
  · split at h
    · exact absurd h (by simp)
    · split at h
      · cases h; rfl
      · exact absurd h (by simp)

theorem findTypes_external (fs : FileSystem) (target : String) (r : ResolvedModuleFull)
    (h : findTypes fs target = some r) : r.isExternalLibraryImport = true := by
  unfold findTypes at h
  split at h
  · cases h; rfl
  · split at h
    · next heq => cases h; exact pkgTypingsResult_external fs _ true _ heq
    · split at h
      · cases h; rfl
      · exact absurd h (by simp)

theorem findInTypeRoots_external (fs : FileSystem) (name : String) :
    ∀ (roots : List String) (r : ResolvedModuleFull),
      findInTypeRoots fs name roots = some r → r.isExternalLibraryImport = true := by
  intro roots
  induction roots with
  | nil => intro r h; simp [findInTypeRoots] at h
  | cons d rest ih =>
    intro r h
    simp only [findInTypeRoots] at h
    split at h
    · next heq => cases h; exact findTypes_external fs _ _ heq
    · exact ih r h

theorem findModule_external (fs : FileSystem) (directory name : String) (tps : List String)
    (r : ResolvedModuleFull) (h : findModule fs directory name (some tps) = some r) :
    r.isExternalLibraryImport = true := by
  unfold findModule at h
  simp only [Option.isSome_some] at h
  split at h
  · next heq => cases h; exact findAny_external fs _ _ _ _ heq
  · split at h
    · next heq => cases h; exact pkgTypingsResult_external fs _ _ _ heq
    · split at h
      · next heq =>
        cases h
        exact findInTypeRoots_external fs name tps _ heq
      · split at h
        · next heq => cases h; exact findAny_external fs _ _ _ _ heq
        · split at h
          · next heq => cases h; exact findAny_external fs _ _ _ _ heq
          · split at h
            · next heq => cases h; exact pkgIndexResult_external fs _ _ _ heq
            · exact findAny_external fs _ _ _ _ h

theorem bareLookupLoop_external (fs : FileSystem) (name : String) (options : CompilerOptions)
    (ctp : Bool) :
    ∀ (globals : List String) (r : ResolvedModuleFull),
      bareLookupLoop fs name options ctp globals = some r → r.isExternalLibraryImport = true := by
  intro globals
  induction globals with
  | nil => intro r h; simp [bareLookupLoop] at h
  | cons g rest ih =>
    intro r h
    simp only [bareLookupLoop] at h
    split at h
    · next heq => cases h; exact findModule_external fs _ _ _ _ heq
    · exact ih r h

/-! ## Concrete fixtures -/

/-- Plugin environment for concrete scenarios: the plugin lives at
`/plug/index.js` and `require.resolve.paths` lists its two ancestor
`node_modules` directories followed by one genuinely global directory. -/
def envPlug : PluginEnv :=
  { filename := "/plug/index.js"
    resolvePaths := some ["/plug/node_modules", "/node_modules", "/usr/lib/node"] }

/-- The end-to-end relative scenario of the spec: `/proj` with `a.ts`,
`b.d.ts` and a config, but no `b.ts`. -/
def fsC4 : FileSystem := mkFS ["/proj/a.ts", "/proj/b.d.ts", "/proj/tsconfig.json"] []

/-- Manifest for the bare-specifier scenario: a `typings` entry already
resolved against the package directory. -/
def pkgC5 : PackageInfo :=
  { index := none, typings := some "/proj/node_modules/lib/types/index.d.ts" }

/-- The end-to-end bare scenario of the spec: `lib` installed under
`/proj/node_modules` with a manifest-declared type entry that exists. -/
def fsC5 : FileSystem :=
  mkFS ["/proj/a.ts", "/proj/tsconfig.json", "/proj/node_modules/lib/types/index.d.ts"]
    [("/proj/node_modules/lib", pkgC5)]

/-- Project with a declaration file reachable by two spellings of the same
relative target. -/
def fsC6 : FileSystem := mkFS ["/proj/b.d.ts"] []

/-- An empty filesystem. -/
def fsC10 : FileSystem := mkFS [] []

/-- A filesystem acquiring `/a/node_modules/lib.d.ts` later in a session. -/
def fsC10b : FileSystem := mkFS ["/a/node_modules/lib.d.ts"] []

/-! ## C4 — relative specifier end-to-end scenario -/

/-- C4: with `/proj/b.d.ts` present and `/proj/b.ts` absent, resolving the
relative specifier `./b` from `/proj` yields `/proj/b.d.ts`, declaration
kind, not external — both through `moduleLookup` directly and through
`resolveModuleNames` from the containing file `/proj/a.ts`. -/
theorem relative_specifier_declaration_scenario :
    (moduleLookup fsC4 [] "/proj" "./b" {} []).1
        = some { resolvedFileName := "/proj/b.d.ts", isExternalLibraryImport := false,
                 extension := Extension.Dts }
    ∧ (resolveModuleNames fsC4 [] ["./b"] "/proj/a.ts" {} (buildModulePaths envPlug "/proj")).1
        = [some { resolvedFileName := "/proj/b.d.ts", isExternalLibraryImport := false,
                  extension := Extension.Dts }] := by
  decide

/-! ## C5 — bare specifiers are external -/

/-- C5: a fresh (uncached) lookup of a non-relative specifier only ever
returns records marked `isExternalLibraryImport = true`; and in the concrete
scenario, the bare specifier `lib` resolves through the manifest type entry
`/proj/node_modules/lib/types/index.d.ts`, marked external. -/
theorem bare_specifier_external (fs : FileSystem) (cache : ModuleCache) (directory name : String)
    (options : CompilerOptions) (globals : List String) :
    (strStartsWith name "." = false → lookupAssoc cache name = none →
      ∀ r, (moduleLookup fs cache directory name options globals).1 = some r →
        r.isExternalLibraryImport = true)
    ∧ (moduleLookup fsC5 [] "/proj" "lib" {} (buildModulePaths envPlug "/proj")).1
        = some { resolvedFileName := "/proj/node_modules/lib/types/index.d.ts",
                 isExternalLibraryImport := true, extension := Extension.Dts } := by
  constructor
  · intro h hc r hr
    simp [moduleLookup, h, hc] at hr
    exact bareLookupLoop_external fs name options _ globals r hr
  · decide

/-- Witness for C5 at the concrete scenario. -/
theorem bare_specifier_external_witness :
    ({ resolvedFileName := "/proj/node_modules/lib/types/index.d.ts",
       isExternalLibraryImport := true, extension := Extension.Dts } :
        ResolvedModuleFull).isExternalLibraryImport = true :=
  (bare_specifier_external fsC5 [] "/proj" "lib" {} (buildModulePaths envPlug "/proj")).1
    (by decide) rfl _
    (bare_specifier_external fsC5 [] "/proj" "lib" {} (buildModulePaths envPlug "/proj")).2

/-! ## C6 — idempotence and normalization of the resolution cache -/

/-- C6: resolving the same (directory, specifier) twice in a session over an
unchanged filesystem returns the same result (the cached answer agrees with
the fresh computation); and two relative specifiers that normalize to the
same absolute target behave identically — same result and same cache
update. -/
theorem resolution_idempotent_normalized (fs : FileSystem) (cache : ModuleCache)
    (dir1 name1 dir2 name2 : String) (options : CompilerOptions) (globals : List String) :
    ((moduleLookup fs (moduleLookup fs cache dir1 name1 options globals).2 dir1 name1 options
        globals).1
      = (moduleLookup fs cache dir1 name1 options globals).1)
    ∧ (strStartsWith name1 "." = true → strStartsWith name2 "." = true →
       pathResolve dir1 name1 = pathResolve dir2 name2 →
       moduleLookup fs cache dir1 name1 options globals
         = moduleLookup fs cache dir2 name2 options globals) := by
  constructor
  · by_cases h : strStartsWith name1 "." = true
    · cases hc : lookupAssoc cache (pathResolve dir1 name1) with
      | some c => simp [moduleLookup, h, hc]
      | none => simp [moduleLookup, h, hc, lookupAssoc_insert]
    · cases hc : lookupAssoc cache name1 with
      | some c => simp [moduleLookup, h, hc]
      | none => simp [moduleLookup, h, hc, lookupAssoc_insert]
  · intro h1 h2 heq
    simp [moduleLookup, h1, h2, heq]

/-- Witness for C6: `../b` from `/proj/sub` and `./b` from `/proj` normalize
to the same target and resolve identically. -/
theorem resolution_idempotent_normalized_witness :
    moduleLookup fsC6 [] "/proj/sub" "../b" {} [] = moduleLookup fsC6 [] "/proj" "./b" {} [] :=
  (resolution_idempotent_normalized fsC6 [] "/proj/sub" "../b" "/proj" "./b" {} []).2
    (by decide) (by decide) (by decide)

/-! ## C10 — bare resolution is directory-independent and negatively cached -/

/-- C10: the lookup of a non-relative specifier ignores the containing
directory entirely (same result and same cache update from any two
directories, and through `resolveModuleNames` from any two containing
files); a second lookup returns the identical record; and a bare specifier
once resolved to nothing keeps resolving to nothing for the rest of the
session, even against a changed filesystem, different options and different
search roots. -/
theorem bare_resolution_directory_independent (fs fs2 : FileSystem) (cache : ModuleCache)
    (dir1 dir2 name f1 f2 : String) (options options2 : CompilerOptions)
    (globals globals2 : List String) :
    (strStartsWith name "." = false →
      moduleLookup fs cache dir1 name options globals
        = moduleLookup fs cache dir2 name options globals)
    ∧ (strStartsWith name "." = false →
      (resolveModuleNames fs cache [name] f1 options globals).1
        = (resolveModuleNames fs cache [name] f2 options globals).1)
    ∧ (strStartsWith name "." = false →
      (moduleLookup fs (moduleLookup fs cache dir1 name options globals).2 dir2 name options
          globals).1
        = (moduleLookup fs cache dir1 name options globals).1)
    ∧ (strStartsWith name "." = false →
      (moduleLookup fs cache dir1 name options globals).1 = none →
      (moduleLookup fs2 (moduleLookup fs cache dir1 name options globals).2 dir2 name options2
          globals2).1 = none) := by
  refine ⟨?_, ?_, ?_, ?_⟩
  · intro h
    simp [moduleLookup, h]
  · intro h
    simp [resolveModuleNames, resolveLoop, moduleLookup, h]
  · intro h
    cases hc : lookupAssoc cache name with
    | some c => simp [moduleLookup, h, hc]
    | none => simp [moduleLookup, h, hc, lookupAssoc_insert]
  · intro h h2
    cases hc : lookupAssoc cache name with
    | some c =>
      simp [moduleLookup, h, hc] at h2
      simp [moduleLookup, h, hc, h2]
    | none =>
      simp [moduleLookup, h, hc] at h2
      simp [moduleLookup, h, hc, h2, lookupAssoc_insert]

/-- Witness for C10: resolving `lib` from two different directories agrees,
and a negatively cached `lib` stays unresolved even after
`/a/node_modules/lib.d.ts` appears and the search roots change. -/
theorem bare_resolution_directory_independent_witness :
    (moduleLookup fsC10 [] "/a/b" "lib" {} [] = moduleLookup fsC10 [] "/c" "lib" {} [])
    ∧ (moduleLookup fsC10b (moduleLookup fsC10 [] "/a/b" "lib" {} []).2 "/c" "lib" {}
        ["/a/node_modules"]).1 = none :=
  ⟨(bare_resolution_directory_independent fsC10 fsC10b [] "/a/b" "/c" "lib" "/x" "/y" {} {}
      [] ["/a/node_modules"]).1 (by decide),
   (bare_resolution_directory_independent fsC10 fsC10b [] "/a/b" "/c" "lib" "/x" "/y" {} {}
      [] ["/a/node_modules"]).2.2.2 (by decide) (by decide)⟩

/-! ## C1 — the bare-specifier search path -/

/-- A project tree whose only copy of `lib` sits in
`/a/b/c/node_modules`, below the project root `/a`. -/
def fsC1 : FileSystem :=
  mkFS ["/a/b/c/node_modules/lib.d.ts", "/a/b/c/x.ts", "/a/tsconfig.json"] []

/-- Counterexample to C1: with project root `/a` and containing file
`/a/b/c/x.ts`, the searched list is exactly the project root's own ancestor
chain plus globals — `/a/b/c/node_modules` and `/a/b/node_modules` are not
in it, and a bare specifier whose only installation lives in
`/a/b/c/node_modules` is not found. -/
theorem search_path_omits_containing_dir_ancestors :
    buildModulePaths envPlug "/a" = ["/a/node_modules", "/node_modules", "/usr/lib/node"]
    ∧ "/a/b/c/node_modules" ∉ buildModulePaths envPlug "/a"
    ∧ "/a/b/node_modules" ∉ buildModulePaths envPlug "/a"
    ∧ (resolveModuleNames fsC1 [] ["lib"] "/a/b/c/x.ts" {} (buildModulePaths envPlug "/a")).1
        = [none] := by
  decide

/-- C1 as amended: the ordered search list for bare specifiers is
independent of the containing file; it is a dependency directory for the
project root and each of its ancestors, nearest first (the project root's
own `node_modules` heads the list), followed by the caller's global library
directories. -/
theorem bare_search_path_structure (env : PluginEnv) (projectRoot : String) :
    buildModulePaths env projectRoot
        = (parents projectRoot).map (fun d => pathJoin d "node_modules") ++ globalPaths env
    ∧ (buildModulePaths env projectRoot).head? = some (pathJoin projectRoot "node_modules")
    ∧ (∀ d, d ∈ parents projectRoot →
        pathJoin d "node_modules" ∈ buildModulePaths env projectRoot)
    ∧ (∀ g, g ∈ globalPaths env → g ∈ buildModulePaths env projectRoot) := by
  obtain ⟨t, ht⟩ := parents_cons projectRoot
  refine ⟨rfl, ?_, ?_, ?_⟩
  · simp [buildModulePaths, ht]
  · intro d hd
    simp only [buildModulePaths]
    exact List.mem_append_left _ (List.mem_map_of_mem _ hd)
  · intro g hg
    simp only [buildModulePaths]
    exact List.mem_append_right _ hg

/-- Witness for C1 (amended) at the spec's example. -/
theorem bare_search_path_structure_witness :
    (buildModulePaths envPlug "/a").head? = some (pathJoin "/a" "node_modules")
    ∧ pathJoin "/a" "node_modules" ∈ buildModulePaths envPlug "/a"
    ∧ "/usr/lib/node" ∈ buildModulePaths envPlug "/a" :=
  ⟨(bare_search_path_structure envPlug "/a").2.1,
   (bare_search_path_structure envPlug "/a").2.2.1 "/a" (by decide),
   (bare_search_path_structure envPlug "/a").2.2.2 "/usr/lib/node" (by decide)⟩

/-! ## C7 — absence is not failure -/

/-- A filesystem on which every primitive throws. -/
def fsAllErr : FileSystem :=
  { stat := fun _ => Except.error ()
    read := fun _ => Except.error ()
    decodePackage := fun _ _ => Except.error () }

/-- A filesystem whose reads succeed but whose manifests never decode. -/
def fsBadPkg : FileSystem :=
  { stat := fun _ => Except.error ()
    read := fun _ => Except.ok "not json"
    decodePackage := fun _ _ => Except.error () }

theorem isFile_false_of_stat_error (fs : FileSystem)
    (hstat : ∀ m, fs.stat m = Except.error ()) (x : Option String) : isFile fs x = false := by
  cases x with
  | none => rfl
  | some m => by_cases hm : m = "" <;> simp [isFile, hm, hstat]

theorem findAny_none_of_stat_error (fs : FileSystem)
    (hstat : ∀ m, fs.stat m = Except.error ()) (target : String) :
    ∀ (exts : List Extension) (g : Bool), findAny fs target exts g = none := by
  intro exts
  induction exts with
  | nil => intro g; rfl
  | cons e rest ih => intro g; simp [findAny, isFile_false_of_stat_error fs hstat, ih]

theorem findModule_none_of_fs_error (fs : FileSystem)
    (hstat : ∀ m, fs.stat m = Except.error ()) (hread : ∀ m, fs.read m = Except.error ())
    (directory name : String) (typeRoots : Option (List String)) :
    findModule fs directory name typeRoots = none := by
  have hload : ∀ d, loadPackage fs d = none := fun d => by simp [loadPackage, hread]
  have hfa := findAny_none_of_stat_error fs hstat
  have hft : ∀ t, findTypes fs t = none := fun t => by
    simp [findTypes, isFile_false_of_stat_error fs hstat, hload, pkgTypingsResult]
  have hroots : ∀ roots, findInTypeRoots fs name roots = none := by
    intro roots
    induction roots with
    | nil => rfl
    | cons d rest ih => simp [findInTypeRoots, hft, ih]
  cases typeRoots with
  | none => simp [findModule, hfa, hload, pkgTypingsResult, pkgIndexResult]
  | some roots => simp [findModule, hfa, hload, pkgTypingsResult, pkgIndexResult, hroots]

theorem bareLookupLoop_none_of_fs_error (fs : FileSystem)
    (hstat : ∀ m, fs.stat m = Except.error ()) (hread : ∀ m, fs.read m = Except.error ())
    (name : String) (options : CompilerOptions) (ctp : Bool) :
    ∀ globals : List String, bareLookupLoop fs name options ctp globals = none := by
  intro globals
  induction globals with
  | nil => rfl
  | cons g rest ih =>
    simp [bareLookupLoop, findModule_none_of_fs_error fs hstat hread, ih]

/-- C7: resolution treats every failure as absence — a failing `stat` probe
means "not a file"; a failing manifest read or a failing manifest decode
both mean "no manifest"; and on a filesystem where every probe fails, any
lookup (relative or bare) returns "no match" rather than an error. -/
theorem resolution_absence_not_failure (fs : FileSystem) (n directory dir name c : String)
    (options : CompilerOptions) (globals : List String) (cache : ModuleCache) :
    (fs.stat n = Except.error () → isFile fs (some n) = false)
    ∧ (fs.read (pathJoin directory "package.json") = Except.error () →
        loadPackage fs directory = none)
    ∧ (fs.read (pathJoin directory "package.json") = Except.ok c →
        fs.decodePackage directory c = Except.error () → loadPackage fs directory = none)
    ∧ ((∀ m, fs.stat m = Except.error ()) → (∀ m, fs.read m = Except.error ()) → cache = [] →
        (moduleLookup fs cache dir name options globals).1 = none) := by
  refine ⟨?_, ?_, ?_, ?_⟩
  · intro h
    by_cases hn : n = "" <;> simp [isFile, hn, h]
  · intro h
    simp [loadPackage, h]
  · intro h1 h2
    simp [loadPackage, h1, h2]
  · intro hstat hread hcache
    subst hcache
    by_cases h : strStartsWith name "." = true
    · simp [moduleLookup, h, lookupAssoc, findModule_none_of_fs_error fs hstat hread]
    · simp [moduleLookup, h, lookupAssoc, bareLookupLoop_none_of_fs_error fs hstat hread]

/-- Witness for C7 on the all-failing and bad-manifest filesystems. -/
theorem resolution_absence_not_failure_witness :
    isFile fsAllErr (some "/q/x.ts") = false
    ∧ loadPackage fsAllErr "/q" = none
    ∧ loadPackage fsBadPkg "/q" = none
    ∧ (moduleLookup fsAllErr [] "/q" "nomatch" {} ["/q/node_modules"]).1 = none :=
  ⟨(resolution_absence_not_failure fsAllErr "/q/x.ts" "/q" "/q" "nomatch" "not json" {}
      ["/q/node_modules"] []).1 rfl,
   (resolution_absence_not_failure fsAllErr "/q/x.ts" "/q" "/q" "nomatch" "not json" {}
      ["/q/node_modules"] []).2.1 rfl,
   (resolution_absence_not_failure fsBadPkg "/q/x.ts" "/q" "/q" "nomatch" "not json" {}
      ["/q/node_modules"] []).2.2.1 rfl rfl,
   (resolution_absence_not_failure fsAllErr "/q/x.ts" "/q" "/q" "nomatch" "not json" {}
      ["/q/node_modules"] []).2.2.2 (fun _ => rfl) (fun _ => rfl) rfl⟩

/-! ## C2 — diagnostic translation -/

/-- A position table mapping offset `p` to line `p`, column `0`. -/
def sfC2 : SourceFileModel :=
  { getLineAndCharacterOfPosition := fun p => { line := p, character := 0 } }

/-- A position table mapping offset `p` to line `p`, column `p + 1`. -/
def sfW : SourceFileModel :=
  { getLineAndCharacterOfPosition := fun p => { line := p, character := p + 1 } }

def nodeC2 : ESNode := { id := 0 }

/-- A diagnostic with a file, a start offset of `0` and a nonzero length. -/
def dC2zero : Diagnostic :=
  { file := some sfC2, start := some 0, length := some 5,
    category := DiagnosticCategory.Error, code := 1, messageText := "boom" }

/-- A diagnostic with a file and nonzero start and length. -/
def dC2good : Diagnostic :=
  { file := some sfW, start := some 3, length := some 2,
    category := DiagnosticCategory.Warning, code := 7, messageText := "warn" }

/-- A diagnostic with no file attached. -/
def dC2bad : Diagnostic :=
  { file := none, start := some 3, length := some 2,
    category := DiagnosticCategory.Warning, code := 7, messageText := "warn" }

/-- Counterexample to C2: this diagnostic carries a source file, a start
offset (namely `0`) and a nonzero length, yet the translator emits the
node-anchored fallback report, because `diagnostic.start` is falsy at `0`. -/
theorem diagnostic_at_start_zero_falls_back :
    dC2zero.file.isSome = true ∧ dC2zero.start = some 0 ∧ dC2zero.length = some 5
    ∧ (5 : Nat) ≠ 0
    ∧ reportDiagnostic nodeC2 dC2zero = Report.onNode nodeC2 (mkReportData dC2zero) := by
  refine ⟨rfl, rfl, rfl, by decide, rfl⟩

/-- C2 as amended: a diagnostic carrying a source file, a *nonzero* start
offset and a nonzero length is reported as a location range obtained by
converting `start` and `start + length` through the file's position table,
with 1-based lines and 0-based columns; every other diagnostic is reported
on the caller-supplied node. -/
theorem diagnostic_translation (node : ESNode) (d : Diagnostic) :
    (∀ f s l, d.file = some f → d.start = some s → d.length = some l → s ≠ 0 → l ≠ 0 →
      reportDiagnostic node d = Report.located (mkReportData d)
        { startLine := (f.getLineAndCharacterOfPosition s).line + 1
          startColumn := (f.getLineAndCharacterOfPosition s).character
          endLine := (f.getLineAndCharacterOfPosition (s + l)).line + 1
          endColumn := (f.getLineAndCharacterOfPosition (s + l)).character })
    ∧ (isDiagnosticWithLocation d = false →
        reportDiagnostic node d = Report.onNode node (mkReportData d)) := by
  constructor
  · intro f s l hf hs hl hs0 hl0
    simp [reportDiagnostic, hf, hs, hl, hs0, hl0]
  · intro h
    rcases hf : d.file with _ | f <;> rcases hs : d.start with _ | s <;>
      rcases hl : d.length with _ | l <;>
      simp_all [reportDiagnostic, isDiagnosticWithLocation, numTruthy]

/-- Witness for C2 (amended) at concrete diagnostics. -/
theorem diagnostic_translation_witness :
    reportDiagnostic nodeC2 dC2good = Report.located (mkReportData dC2good)
        { startLine := 4, startColumn := 4, endLine := 6, endColumn := 6 }
    ∧ reportDiagnostic nodeC2 dC2bad = Report.onNode nodeC2 (mkReportData dC2bad) :=
  ⟨(diagnostic_translation nodeC2 dC2good).1 sfW 3 2 rfl rfl rfl (by decide) (by decide),
   (diagnostic_translation nodeC2 dC2bad).2 (by decide)⟩

/-! ## C3 — resolution precedence -/

theorem getExtensionFromFileName_eq_none (name : String) :
    getExtensionFromFileName name = none := by
  unfold getExtensionFromFileName
  cases hfind : extensionKeys.find? (fun key => strStartsWith name "." && strEndsWith name key) with
  | none => rfl
  | some k => cases extensionValueOfKey k <;> simp [extensionOfValue]

theorem findAny_ts_of_dts (fs : FileSystem) (target : String) (g : Bool)
    (h : isFile fs (some (target ++ ".d.ts")) = true) :
    ∃ r, findAny fs target TS_EXTENSIONS g = some r ∧ r.extension ∈ TS_EXTENSIONS := by
  cases h1 : isFile fs (some (target ++ ".ts")) with
  | true =>
    refine ⟨{ resolvedFileName := target ++ ".ts", isExternalLibraryImport := g,
              extension := Extension.Ts }, ?_, by simp [TS_EXTENSIONS]⟩
    simp [TS_EXTENSIONS, findAny, Extension.str, h1]
  | false =>
    cases h2 : isFile fs (some (target ++ ".tsx")) with
    | true =>
      refine ⟨{ resolvedFileName := target ++ ".tsx", isExternalLibraryImport := g,
                extension := Extension.Tsx }, ?_, by simp [TS_EXTENSIONS]⟩
      simp [TS_EXTENSIONS, findAny, Extension.str, h1, h2]
    | false =>
      refine ⟨{ resolvedFileName := target ++ ".d.ts", isExternalLibraryImport := g,
                extension := Extension.Dts }, ?_, by simp [TS_EXTENSIONS]⟩
      simp [TS_EXTENSIONS, findAny, Extension.str, h1, h2, h]

/-- C3: declaration/typed-source extensions are probed before plain script
extensions (any hit among them wins whenever the declaration file exists —
in particular with only `.d.ts` and `.js` present the declaration file is
returned); a manifest type entry beats `target/index.d.ts`; and
`target/index.d.ts` beats every convention script entry. -/
theorem resolution_precedence (fs : FileSystem) (directory name : String)
    (typeRoots : Option (List String)) (pkg : PackageInfo) (t : String) :
    (isFile fs (some (pathJoin directory name ++ ".d.ts")) = true →
      ∃ r, findModule fs directory name typeRoots = some r ∧ r.extension ∈ TS_EXTENSIONS)
    ∧ (isFile fs (some (pathJoin directory name ++ ".ts")) = false →
       isFile fs (some (pathJoin directory name ++ ".tsx")) = false →
       isFile fs (some (pathJoin directory name ++ ".d.ts")) = true →
       findModule fs directory name typeRoots
         = some { resolvedFileName := pathJoin directory name ++ ".d.ts"
                  isExternalLibraryImport := typeRoots.isSome
                  extension := Extension.Dts })
    ∧ (isFile fs (some (pathJoin directory name ++ ".ts")) = false →
       isFile fs (some (pathJoin directory name ++ ".tsx")) = false →
       isFile fs (some (pathJoin directory name ++ ".d.ts")) = false →
       loadPackage fs (pathJoin directory name) = some pkg →
       pkg.typings = some t → t ≠ "" → isFile fs (some t) = true →
       findModule fs directory name typeRoots
         = some { resolvedFileName := t
                  isExternalLibraryImport := typeRoots.isSome
                  extension := Extension.Dts })
    ∧ (isFile fs (some (pathJoin directory name ++ ".ts")) = false →
       isFile fs (some (pathJoin directory name ++ ".tsx")) = false →
       isFile fs (some (pathJoin directory name ++ ".d.ts")) = false →
       loadPackage fs (pathJoin directory name) = none →
       typeRoots = none →
       isFile fs (some (pathJoin (pathJoin directory name) "index" ++ ".ts")) = false →
       isFile fs (some (pathJoin (pathJoin directory name) "index" ++ ".tsx")) = false →
       isFile fs (some (pathJoin (pathJoin directory name) "index" ++ ".d.ts")) = true →
       findModule fs directory name typeRoots
         = some { resolvedFileName := pathJoin (pathJoin directory name) "index" ++ ".d.ts"
                  isExternalLibraryImport := false
                  extension := Extension.Dts }) := by
  refine ⟨?_, ?_, ?_, ?_⟩
  · intro h
    obtain ⟨r, hr, hext⟩ := findAny_ts_of_dts fs (pathJoin directory name) typeRoots.isSome h
    exact ⟨r, by simp [findModule, hr], hext⟩
  · intro h1 h2 h3
    simp [findModule, TS_EXTENSIONS, findAny, Extension.str, h1, h2, h3]
  · intro h1 h2 h3 hpkg hty ht hfile
    simp [findModule, TS_EXTENSIONS, findAny, Extension.str, h1, h2, h3, hpkg,
      pkgTypingsResult, hty, ht, hfile, getExtensionFromFileName_eq_none]
  · intro h1 h2 h3 hpkg htr hi1 hi2 hi3
    subst htr
    simp [findModule, TS_EXTENSIONS, findAny, Extension.str, h1, h2, h3, hpkg,
      pkgTypingsResult, hi1, hi2, hi3]

/-- Declaration and compiled script side by side. -/
def fsC3a : FileSystem := mkFS ["/w/m.d.ts", "/w/m.js"] []

/-- Manifest with a type entry for the C3 witness. -/
def pkgC3 : PackageInfo := { index := none, typings := some "/w/p/typ.d.ts" }

/-- Manifest type entry and `index.d.ts` side by side. -/
def fsC3b : FileSystem := mkFS ["/w/p/typ.d.ts", "/w/p/index.d.ts"] [("/w/p", pkgC3)]

/-- `index.d.ts` next to convention script entries. -/
def fsC3c : FileSystem := mkFS ["/w/q/index.d.ts", "/w/q.js", "/w/q/index.js"] []

/-- Witness for C3 on the three concrete layouts. -/
theorem resolution_precedence_witness :
    (∃ r, findModule fsC3a "/w" "m" none = some r ∧ r.extension ∈ TS_EXTENSIONS)
    ∧ findModule fsC3a "/w" "m" none
        = some { resolvedFileName := "/w/m.d.ts", isExternalLibraryImport := false,
                 extension := Extension.Dts }
    ∧ findModule fsC3b "/w" "p" none
        = some { resolvedFileName := "/w/p/typ.d.ts", isExternalLibraryImport := false,
                 extension := Extension.Dts }
    ∧ findModule fsC3c "/w" "q" none
        = some { resolvedFileName := "/w/q/index.d.ts", isExternalLibraryImport := false,
                 extension := Extension.Dts } :=
  ⟨(resolution_precedence fsC3a "/w" "m" none pkgC3 "x").1 (by decide),
   (resolution_precedence fsC3a "/w" "m" none pkgC3 "x").2.1 (by decide) (by decide) (by decide),
   (resolution_precedence fsC3b "/w" "p" none pkgC3 "/w/p/typ.d.ts").2.2.1
     (by decide) (by decide) (by decide) (by decide) rfl (by decide) (by decide),
   (resolution_precedence fsC3c "/w" "q" none pkgC3 "x").2.2.2
     (by decide) (by decide) (by decide) (by decide) rfl (by decide) (by decide) (by decide)⟩

/-! ## C8 — the session registry -/

/-- A tree with a config at `/p/q/tsconfig.json`. -/
def fsC8 : FileSystem := mkFS ["/p/q/tsconfig.json", "/p/q/a.ts"] []

/-- An environment whose config decoding always fails with `bad`. -/
def envC8bad : RuleEnv :=
  { pluginEnv := envPlug
    decodeConfig := fun _ => Except.error "bad"
    findIncludedFiles := fun _ _ => [] }

/-- A minimal decoded config (`{ "compilerOptions": {} }`). -/
def cfg0 : Config := { compilerOptions := {} }

/-- An environment whose config decoding succeeds with `cfg0`. -/
def envC8ok : RuleEnv :=
  { pluginEnv := envPlug
    decodeConfig := fun _ => Except.ok cfg0
    findIncludedFiles := fun _ _ => ["/p/q/a.ts"] }

/-- The report emitted for a failed decode of `/p/q/tsconfig.json`. -/
def cfgRepC8 : ConfigReport :=
  { message := "Could not parse tsconfig.json: {{ error }}", error := "bad" }

/-- Counterexample to C8: on a miss with a decode failure the registry is
left unchanged and a failure report carrying the parse error is emitted —
but neither its message nor its data contains the discovered config path
`/p/q/tsconfig.json`, so the report does not name the config path. -/
theorem config_failure_report_lacks_path :
    findAbove fsC8 (pathDirname "/p/q/a.ts") "tsconfig.json" = some "/p/q/tsconfig.json"
    ∧ (getProject envC8bad fsC8 [] "/p/q/a.ts").1 = none
    ∧ (getProject envC8bad fsC8 [] "/p/q/a.ts").2.1 = [cfgRepC8]
    ∧ (getProject envC8bad fsC8 [] "/p/q/a.ts").2.2 = []
    ∧ strContains cfgRepC8.message "/p/q/tsconfig.json" = false
    ∧ strContains cfgRepC8.error "/p/q/tsconfig.json" = false :=
  ⟨by decide, rfl, rfl, rfl, by decide, by decide⟩

/-- C8 as amended: the registry caches at most one session per discovered
config path.  On a hit the cached session is returned unconditionally —
whatever the decoder and file enumerator would now say — with no report and
no registry change.  On a miss with a decode failure, a structured failure
carrying the parse error (and naming only the fixed file name
`tsconfig.json`, not the discovered config path) is reported and nothing is
cached, so the next visit retries.  On a miss with a successful decode the
constructed session is stored and returned, and a subsequent visit returns
exactly that stored session with the registry unchanged. -/
theorem session_registry_behavior (env : RuleEnv) (fs : FileSystem) (pm : ProjectMap)
    (filename configFile : String) (p : Option ESLintProject) (e : String) (config : Config) :
    (findAbove fs (pathDirname filename) "tsconfig.json" = some configFile →
      lookupAssoc pm configFile = some p →
      ∀ dc fi, getProject { env with decodeConfig := dc, findIncludedFiles := fi } fs pm filename
        = (p, [], pm))
    ∧ (findAbove fs (pathDirname filename) "tsconfig.json" = some configFile →
       lookupAssoc pm configFile = none →
       env.decodeConfig configFile = Except.error e →
       getProject env fs pm filename
         = (none, [{ message := "Could not parse tsconfig.json: {{ error }}", error := e }], pm))
    ∧ (findAbove fs (pathDirname filename) "tsconfig.json" = some configFile →
       lookupAssoc pm configFile = none →
       env.decodeConfig configFile = Except.ok config →
       getProject env fs pm filename
         = (some { host := mkESLintServiceHost env.pluginEnv env.findIncludedFiles
                     (pathDirname configFile) config },
            [],
            insertAssoc pm configFile
              (some { host := mkESLintServiceHost env.pluginEnv env.findIncludedFiles
                        (pathDirname configFile) config }))
       ∧ lookupAssoc (getProject env fs pm filename).2.2 configFile
           = some (some { host := mkESLintServiceHost env.pluginEnv env.findIncludedFiles
                            (pathDirname configFile) config })
       ∧ getProject env fs (getProject env fs pm filename).2.2 filename
           = (some { host := mkESLintServiceHost env.pluginEnv env.findIncludedFiles
                       (pathDirname configFile) config },
              [], (getProject env fs pm filename).2.2)) := by
  refine ⟨?_, ?_, ?_⟩
  · intro h1 h2 dc fi
    simp [getProject, h1, h2]
  · intro h1 h2 h3
    simp [getProject, h1, h2, h3]
  · intro h1 h2 h3
    refine ⟨by simp [getProject, h1, h2, h3], ?_, ?_⟩
    · simp [getProject, h1, h2, h3, lookupAssoc_insert]
    · simp [getProject, h1, h2, h3, lookupAssoc_insert]

/-- The session stored for `/p/q/tsconfig.json` under `envC8ok`. -/
def projC8 : ESLintProject :=
  { host := mkESLintServiceHost envPlug (fun _ _ => ["/p/q/a.ts"]) "/p/q" cfg0 }

/-- A registry already holding the session for `/p/q/tsconfig.json`. -/
def pmC8 : ProjectMap := [("/p/q/tsconfig.json", some projC8)]

/-- Witness for C8 (amended): a hit survives a changed decoder, a failed
decode reports and caches nothing, and a successful decode returns the
constructed session. -/
theorem session_registry_behavior_witness :
    getProject { pluginEnv := envPlug, decodeConfig := fun _ => Except.error "changed",
                 findIncludedFiles := fun _ _ => [] } fsC8 pmC8 "/p/q/a.ts"
      = (some projC8, [], pmC8)
    ∧ getProject envC8bad fsC8 [] "/p/q/a.ts" = (none, [cfgRepC8], [])
    ∧ (getProject envC8ok fsC8 [] "/p/q/a.ts").1 = some projC8 :=
  ⟨(session_registry_behavior envC8ok fsC8 pmC8 "/p/q/a.ts" "/p/q/tsconfig.json"
      (some projC8) "bad" cfg0).1 (by decide) rfl (fun _ => Except.error "changed")
      (fun _ _ => []),
   (session_registry_behavior envC8bad fsC8 [] "/p/q/a.ts" "/p/q/tsconfig.json"
      (some projC8) "bad" cfg0).2.1 (by decide) rfl rfl,
   congrArg Prod.fst
     (((session_registry_behavior envC8ok fsC8 [] "/p/q/a.ts" "/p/q/tsconfig.json"
         (some projC8) "bad" cfg0).2.2 (by decide) rfl rfl).1)⟩

/-! ## C9 — snapshot laziness, memoization and disposal -/

/-- A filesystem where `/proj/e.ts` is empty. -/
def fsC9a : FileSystem :=
  { stat := fun _ => Except.error ()
    read := fun m => if m = "/proj/e.ts" then Except.ok "" else Except.error ()
    decodePackage := fun _ _ => Except.error () }

/-- The same file after its content changed to `x` on disk. -/
def fsC9b : FileSystem :=
  { stat := fun _ => Except.error ()
    read := fun m => if m = "/proj/e.ts" then Except.ok "x" else Except.error ()
    decodePackage := fun _ _ => Except.error () }

/-- Counterexample to C9: a snapshot of an empty file memoizes `""`, yet the
very next access reads the file again (here observing the changed content
`x`), because `if (this.script)` is false for the empty string — so the
content is not "read only on the first access and memoized for the
snapshot's lifetime". -/
theorem snapshot_empty_content_reread :
    ScriptSnapshot.getContent fsC9a { script := none, filename := "/proj/e.ts" }
      = Except.ok ("", { script := some "", filename := "/proj/e.ts" })
    ∧ ScriptSnapshot.getContent fsC9b { script := some "", filename := "/proj/e.ts" }
      = Except.ok ("x", { script := some "x", filename := "/proj/e.ts" }) :=
  ⟨rfl, rfl⟩

/-- C9 as amended: snapshot construction performs no read (a fresh snapshot
has no content); the content is read on the first access and memoized for
the snapshot's lifetime provided it is non-empty (an empty content is
re-read on every access); and `dispose` removes the snapshot from the
session table, so the next `getScriptSnapshot` builds a fresh snapshot whose
first access re-reads the file from the current filesystem. -/
theorem snapshot_lazy_memoized_disposed (fs fs2 : FileSystem) (st : SnapshotTable)
    (f c c2 : String) (c0 : Option String) :
    (lookupAssoc st f = none →
      getScriptSnapshot st f
        = ({ script := none, filename := f }, insertAssoc st f { script := none, filename := f }))
    ∧ (fs.read f = Except.ok c →
       ScriptSnapshot.getContent fs { script := none, filename := f }
         = Except.ok (c, { script := some c, filename := f }))
    ∧ (c ≠ "" →
       ScriptSnapshot.getContent fs2 { script := some c, filename := f }
         = Except.ok (c, { script := some c, filename := f }))
    ∧ ((st.map Prod.fst).Nodup →
       lookupAssoc (disposeSnapshot st { script := c0, filename := f }).2 f = none)
    ∧ ((st.map Prod.fst).Nodup → fs2.read f = Except.ok c2 →
       ScriptSnapshot.getContent fs2
         (getScriptSnapshot (disposeSnapshot st { script := c0, filename := f }).2 f).1
         = Except.ok (c2, { script := some c2, filename := f })) := by
  refine ⟨?_, ?_, ?_, ?_, ?_⟩
  · intro h
    simp [getScriptSnapshot, h]
  · intro h
    simp [ScriptSnapshot.getContent, h, Except.map]
  · intro h
    simp [ScriptSnapshot.getContent, h]
  · intro h
    simpa [disposeSnapshot] using lookupAssoc_erase_self st f h
  · intro h h2
    have hnone : lookupAssoc (disposeSnapshot st { script := c0, filename := f }).2 f = none := by
      simpa [disposeSnapshot] using lookupAssoc_erase_self st f h
    simp [getScriptSnapshot, hnone, ScriptSnapshot.getContent, h2, Except.map]

/-- Witness for C9 (amended): lazy construction, first-access read,
disk-independent access of memoized non-empty content (even on a filesystem
whose reads all fail), disposal, and the re-read after disposal observing
the current content. -/
theorem snapshot_lazy_memoized_disposed_witness :
    getScriptSnapshot [] "/proj/e.ts"
      = ({ script := none, filename := "/proj/e.ts" },
         [("/proj/e.ts", { script := none, filename := "/proj/e.ts" })])
    ∧ ScriptSnapshot.getContent fsC9b { script := none, filename := "/proj/e.ts" }
      = Except.ok ("x", { script := some "x", filename := "/proj/e.ts" })
    ∧ ScriptSnapshot.getContent fsAllErr { script := some "x", filename := "/proj/e.ts" }
      = Except.ok ("x", { script := some "x", filename := "/proj/e.ts" })
    ∧ lookupAssoc
        (disposeSnapshot [("/proj/e.ts", { script := some "old", filename := "/proj/e.ts" })]
          { script := some "old", filename := "/proj/e.ts" }).2 "/proj/e.ts" = none
    ∧ ScriptSnapshot.getContent fsC9b
        (getScriptSnapshot
          (disposeSnapshot [("/proj/e.ts", { script := some "old", filename := "/proj/e.ts" })]
            { script := some "old", filename := "/proj/e.ts" }).2 "/proj/e.ts").1
      = Except.ok ("x", { script := some "x", filename := "/proj/e.ts" }) :=
  ⟨(snapshot_lazy_memoized_disposed fsC9b fsC9b [] "/proj/e.ts" "x" "x" none).1 rfl,
   (snapshot_lazy_memoized_disposed fsC9b fsAllErr [] "/proj/e.ts" "x" "x" none).2.1 rfl,
   (snapshot_lazy_memoized_disposed fsC9b fsAllErr [] "/proj/e.ts" "x" "x" none).2.2.1
     (by decide),
   (snapshot_lazy_memoized_disposed fsC9b fsC9b
      [("/proj/e.ts", { script := some "old", filename := "/proj/e.ts" })]
      "/proj/e.ts" "x" "x" (some "old")).2.2.2.1 (by simp),
   (snapshot_lazy_memoized_disposed fsC9b fsC9b
      [("/proj/e.ts", { script := some "old", filename := "/proj/e.ts" })]
      "/proj/e.ts" "x" "x" (some "old")).2.2.2.2 (by simp) rfl⟩

end CheckTypes
